import Mathlib

/-!
# Cluster client resolver (`prow/flagutil/kubernetes_cluster_clients.go`)

A shallow embedding of `KubernetesOptions` and its methods.

* Go maps `map[string]V` are association lists with distinct keys
  (`AList`); the order of the entries is the order in which a `range` loop
  visits them, so a statement about every map is a statement about every
  iteration order.  A nil map reads like the empty map and is modelled by it.
* The collaborators that live outside the file (`url.ParseRequestURI`,
  `os.Stat`, `kube.LoadClusterConfigs`, `kubernetes.NewForConfig`,
  `prow.NewForConfig`, `kube.NewDryRunProwJobClient` and the typed
  sub-client getters) are the fields of an environment `Env`.
* A method with pointer receiver returns a `Step`: its Go return value, the
  receiver after the call, and the calls it made to the config loader and to
  the two client constructors, in order.
-/

namespace flagutil

/-- A Go `map[string]V`: entries with pairwise distinct keys. -/
abbrev GoMap (V : Type) := AList (fun _ : String => V)

/-- Modelled from the spec: the constant `kube.DefaultClusterAlias`, declared
in package `kube`; the specification gives its value as the literal alias
name `"default"`. -/
def DefaultClusterAlias : String := "default"

/-- The external collaborators of the file: their opaque types and their
behaviour. -/
structure Env where
  /-- Type `rest.Config`. -/
  Config : Type
  /-- A non-nil `kubernetes.Interface`. -/
  Client : Type
  /-- A non-nil `prow.Interface`. -/
  ProwClientset : Type
  /-- Type `prowv1.ProwJobInterface`. -/
  ProwJobClient : Type
  /-- Type `corev1.PodInterface`. -/
  PodClient : Type
  /-- Errors produced by the collaborators. -/
  ExtError : Type
  /-- The error of `url.ParseRequestURI`, if any. -/
  ParseRequestURI : String → Option ExtError
  /-- The error of `os.Stat`, if any. -/
  Stat : String → Option ExtError
  /-- The three results of `kube.LoadClusterConfigs(kubeconfig, buildCluster)`. -/
  LoadClusterConfigs : String → String → GoMap Config × String × Option ExtError
  /-- Result of `kubernetes.NewForConfig`. -/
  kubernetesNewForConfig : Config → Except ExtError Client
  /-- Result of `prow.NewForConfig`. -/
  prowNewForConfig : Config → Except ExtError ProwClientset
  /-- Result of `kube.NewDryRunProwJobClient`. -/
  NewDryRunProwJobClient : String → ProwJobClient
  /-- Value of `clientset.ProwV1().ProwJobs(namespace)`. -/
  ProwJobs : ProwClientset → String → ProwJobClient
  /-- Value of `client.CoreV1().Pods(namespace)`. -/
  Pods : Client → String → PodClient

/-- The Go `error` values the file returns. -/
inductive Error (E : Env) where
  /-- "a dry-run was requested but required flag -deck-url was unset" -/
  | dryRunWithoutDeckURL
  /-- "invalid -deck-url URI: %q" -/
  | invalidDeckURL (uri : String)
  /-- "error accessing --kubeconfig: %v" -/
  | kubeconfigAccess (err : E.ExtError)
  /-- "cannot provide --context without --kubeconfig" -/
  | contextWithoutKubeconfig
  /-- "must provide only --build-cluster OR --kubeconfig" -/
  | buildClusterAndKubeconfig
  /-- An error of a client constructor, returned as it is. -/
  | construction (err : E.ExtError)
  /-- "resolved infrastructure cluster context to %q but did not find it in
  the kubeconfig" -/
  | infraContextNotFound (context : String)
  /-- "no dry-run prowjob clientset is supported in dry-run mode" -/
  | noDryRunClientset
  /-- "no dry-run kubernetes client is supported in dry-run mode" -/
  | noDryRunKubernetesClient
  /-- "no dry-run pod client is supported for build clusters in dry-run mode" -/
  | noDryRunPodClient
  /-- "the following cluster aliases declared for jobs were not found in
  loaded clusters: %v" -/
  | aliasesNotFound (missing : List String)

/-- A call to the config loader or to one of the two client constructors. -/
inductive Call (E : Env) where
  | LoadClusterConfigs (kubeconfig buildCluster : String)
  | kubernetesNewForConfig (config : E.Config)
  | prowNewForConfig (config : E.Config)

/-- The struct `KubernetesOptions`.  A nil `prowJobClientset` is `none`; a
nil `kubernetesClientsByContext` is the empty map. -/
structure KubernetesOptions (E : Env) where
  buildCluster : String
  kubeconfig : String
  infraContext : String
  DeckURI : String
  resolved : Bool
  dryRun : Bool
  prowJobClientset : Option E.ProwClientset
  kubernetesClientsByContext : GoMap E.Client

/-- What a method call leaves behind: the returned value, the receiver after
the call and the loader and constructor calls made, in order. -/
structure Step (E : Env) (α : Type) where
  ret : α
  o : KubernetesOptions E
  calls : List (Call E)

/-- The `(value, error)` pair an accessor returns: `value a` is `a, nil`,
`error e` is `nil, e`; `nilDeref` is the run-time panic of a method call on a
nil interface. -/
inductive Result (E : Env) (α : Type) where
  | value (a : α)
  | error (e : Error E)
  | nilDeref

/-- Whether the accessor returned `nil, err` with a non-nil `err`. -/
def Result.isError {E : Env} {α : Type} : Result E α → Bool
  | .error _ => true
  | _ => false

/-- Method `Validate` (lines 60-87). -/
def Validate (E : Env) (o : KubernetesOptions E) (dryRun : Bool) :
    Step E (Option (Error E)) :=
  if dryRun = true ∧ o.DeckURI = "" then
    ⟨some .dryRunWithoutDeckURL, o, []⟩
  else if o.DeckURI ≠ "" ∧ (E.ParseRequestURI o.DeckURI).isSome then
    ⟨some (.invalidDeckURL o.DeckURI), o, []⟩
  else
    match (if o.kubeconfig ≠ "" then E.Stat o.kubeconfig else none) with
    | some err => ⟨some (.kubeconfigAccess err), o, []⟩
    | none =>
      if o.infraContext ≠ "" ∧ o.kubeconfig = "" then
        ⟨some .contextWithoutKubeconfig, o, []⟩
      else if o.kubeconfig ≠ "" ∧ o.buildCluster ≠ "" then
        ⟨some .buildClusterAndKubeconfig, o, []⟩
      else
        ⟨none, o, []⟩

/-- The loop of `resolve` (lines 101-108) over the entries still to visit:
the map of clients built, or the first construction error, with the
constructor calls made. -/
def newClients (E : Env) :
    List (Sigma fun _ : String => E.Config) → GoMap E.Client →
      Except E.ExtError (GoMap E.Client) × List (Call E)
  | [], clients => (.ok clients, [])
  | ⟨context, config⟩ :: rest, clients =>
    match E.kubernetesNewForConfig config with
    | .error err => (.error err, [.kubernetesNewForConfig config])
    | .ok client =>
      let r := newClients E rest (clients.insert context client)
      (r.1, .kubernetesNewForConfig config :: r.2)

/-- Method `resolve` (lines 89-127).  The `err` of the loader is assigned and
not read before `prow.NewForConfig` overwrites it. -/
def resolve (E : Env) (o : KubernetesOptions E) (dryRun : Bool) :
    Step E (Option (Error E)) :=
  if o.resolved = true then
    ⟨none, o, []⟩
  else
    let o := { o with dryRun := dryRun }
    if dryRun = true then
      ⟨none, o, []⟩
    else
      let loaded := E.LoadClusterConfigs o.kubeconfig o.buildCluster
      let clusterConfigs := loaded.1
      let defaultContext := loaded.2.1
      let load : Call E := .LoadClusterConfigs o.kubeconfig o.buildCluster
      match newClients E clusterConfigs.entries ∅ with
      | (.error err, made) => ⟨some (.construction err), o, load :: made⟩
      | (.ok clients, made) =>
        let o := if o.infraContext = "" then { o with infraContext := defaultContext } else o
        match clusterConfigs.lookup o.infraContext with
        | none => ⟨some (.infraContextNotFound o.infraContext), o, load :: made⟩
        | some infraConfig =>
          match E.prowNewForConfig infraConfig with
          | .error err =>
            ⟨some (.construction err), o, load :: (made ++ [.prowNewForConfig infraConfig])⟩
          | .ok pjClient =>
            ⟨none,
              { o with
                prowJobClientset := some pjClient
                kubernetesClientsByContext := clients
                resolved := true },
              load :: (made ++ [.prowNewForConfig infraConfig])⟩

/-- Method `ProwJobClientset` (lines 129-140). -/
def ProwJobClientset (E : Env) (o : KubernetesOptions E) (_ns : String)
    (dryRun : Bool) : Step E (Result E (Option E.ProwClientset)) :=
  if o.dryRun = true then
    ⟨.error .noDryRunClientset, o, []⟩
  else
    let r := resolve E o dryRun
    match r.ret with
    | some err => ⟨.error err, r.o, r.calls⟩
    | none => ⟨.value r.o.prowJobClientset, r.o, r.calls⟩

/-- Method `ProwJobClient` (lines 142-153). -/
def ProwJobClient (E : Env) (o : KubernetesOptions E) (ns : String)
    (dryRun : Bool) : Step E (Result E E.ProwJobClient) :=
  let r := resolve E o dryRun
  match r.ret with
  | some err => ⟨.error err, r.o, r.calls⟩
  | none =>
    if r.o.dryRun = true then
      ⟨.value (E.NewDryRunProwJobClient r.o.DeckURI), r.o, r.calls⟩
    else
      match r.o.prowJobClientset with
      | none => ⟨.nilDeref, r.o, r.calls⟩
      | some clientset => ⟨.value (E.ProwJobs clientset ns), r.o, r.calls⟩

/-- Method `InfrastructureClusterClient` (lines 155-166); the value is the
map read `o.kubernetesClientsByContext[o.infraContext]`, nil (`none`) for an
absent key. -/
def InfrastructureClusterClient (E : Env) (o : KubernetesOptions E)
    (dryRun : Bool) : Step E (Result E (Option E.Client)) :=
  if o.dryRun = true then
    ⟨.error .noDryRunKubernetesClient, o, []⟩
  else
    let r := resolve E o dryRun
    match r.ret with
    | some err => ⟨.error err, r.o, r.calls⟩
    | none => ⟨.value (r.o.kubernetesClientsByContext.lookup r.o.infraContext), r.o, r.calls⟩

/-- Function `contextsToAliases` (lines 190-207). -/
def contextsToAliases {V : Type} (clientsByContext : GoMap V) (infraContext : String) :
    GoMap V :=
  let literalDefaultProvided := (clientsByContext.lookup DefaultClusterAlias).isSome
  clientsByContext.entries.foldl
    (fun clientsByAlias entry =>
      let context := entry.1
      let aliasName := if !literalDefaultProvided && context == infraContext
        then DefaultClusterAlias else context
      clientsByAlias.insert aliasName entry.2)
    ∅

/-- The loop of `BuildClusterClients` (lines 178-183): the set of aliases
and the pod clients by alias. -/
def buildClients (E : Env) (ns : String) (aliases : GoMap E.Client) :
    Finset String × GoMap E.PodClient :=
  aliases.entries.foldl
    (fun acc entry => (insert entry.1 acc.1, acc.2.insert entry.1 (E.Pods entry.2 ns)))
    (∅, ∅)

/-- Method `BuildClusterClients` (lines 168-188).  A `sets.String` is a
finite set of strings; `HasAll` is inclusion, `Difference` is set difference
and `List` is the ascending enumeration. -/
def BuildClusterClients (E : Env) (o : KubernetesOptions E) (ns : String)
    (dryRun : Bool) (knownAliases : Finset String) :
    Step E (Result E (GoMap E.PodClient)) :=
  if o.dryRun = true then
    ⟨.error .noDryRunPodClient, o, []⟩
  else
    let r := resolve E o dryRun
    match r.ret with
    | some err => ⟨.error err, r.o, r.calls⟩
    | none =>
      let built := buildClients E ns
        (contextsToAliases r.o.kubernetesClientsByContext r.o.infraContext)
      let buildClusterAliases := built.1
      if ¬ knownAliases ⊆ buildClusterAliases then
        ⟨.error (.aliasesNotFound
            ((knownAliases \ buildClusterAliases).sort (fun a b => a ≤ b))), r.o, r.calls⟩
      else
        ⟨.value built.2, r.o, r.calls⟩

/-- A concrete environment over numbers and strings: the loader returns
`loaded` whatever the paths, `kubernetes.NewForConfig` fails on config `0`,
`prow.NewForConfig` fails on config `9`, the URI `"::"` does not parse and the
path `"/missing"` does not exist. -/
def stubEnv (loaded : GoMap Nat × String × Option String) : Env where
  Config := Nat
  Client := Nat
  ProwClientset := Nat
  ProwJobClient := String ⊕ (Nat × String)
  PodClient := Nat × String
  ExtError := String
  ParseRequestURI := fun uri => if uri = "::" then some "missing protocol scheme" else none
  Stat := fun path => if path = "/missing" then some "no such file or directory" else none
  LoadClusterConfigs := fun _ _ => loaded
  kubernetesNewForConfig := fun config => if config = 0 then .error "bad config" else .ok config
  prowNewForConfig := fun config => if config = 9 then .error "bad prow config" else .ok config
  NewDryRunProwJobClient := fun uri => .inl uri
  ProwJobs := fun clientset ns => .inr (clientset, ns)
  Pods := fun client ns => (client, ns)

/-- The map `{"a": 1, "b": 2}`. -/
def mapAB : GoMap Nat := ((∅ : GoMap Nat).insert "b" 2).insert "a" 1

/-- The map `{"a": 1, "default": 2}`. -/
def mapADefault : GoMap Nat := ((∅ : GoMap Nat).insert "default" 2).insert "a" 1

/-- An instance as the flag package leaves it: the four flag values set,
nothing resolved. -/
def fresh (E : Env) (buildCluster kubeconfig infraContext DeckURI : String) :
    KubernetesOptions E where
  buildCluster := buildCluster
  kubeconfig := kubeconfig
  infraContext := infraContext
  DeckURI := DeckURI
  resolved := false
  dryRun := false
  prowJobClientset := none
  kubernetesClientsByContext := ∅

/-- An environment whose loader finds the contexts a ↦ 1, b ↦ 2 and reports
"a" as the default context. -/
def envAB : Env := stubEnv (mapAB, "a", none)

/-- An environment whose loader returns the contexts a ↦ 1, b ↦ 2 and the
default context "a" together with a non-nil error. -/
def envABErr : Env := stubEnv (mapAB, "a", some "kubecfg: invalid configuration")

/-- An instance resolved in non-dry-run mode that caches the clients
a ↦ 1, b ↦ 2 with infra context "a" and the clientset 1. -/
def resolvedAB : KubernetesOptions envAB where
  buildCluster := ""
  kubeconfig := ""
  infraContext := "a"
  DeckURI := "http://deck"
  resolved := true
  dryRun := false
  prowJobClientset := some (1 : Nat)
  kubernetesClientsByContext := mapAB

/-- The config set the loader returns for the paths of the instance. -/
def loadedConfigs (E : Env) (o : KubernetesOptions E) : GoMap E.Config :=
  (E.LoadClusterConfigs o.kubeconfig o.buildCluster).1

/-- The infra context in the words of the specification: the explicit
`--context` value when it is non-empty, otherwise the default context the
loader reports. -/
def infraContextOf (E : Env) (o : KubernetesOptions E) : String :=
  if o.infraContext = "" then (E.LoadClusterConfigs o.kubeconfig o.buildCluster).2.1
  else o.infraContext

/-- The alias the loop of `contextsToAliases` computes for a context (lines
200-203). -/
def aliasOf {V : Type} (clientsByContext : GoMap V) (infraContext context : String) :
    String :=
  if (!(clientsByContext.lookup DefaultClusterAlias).isSome && context == infraContext) = true
  then DefaultClusterAlias else context

/-- The environment `E` with another config loader and other client
constructors; the types and the remaining collaborators are those of `E`. -/
def withCollaborators (E : Env)
    (load : String → String → GoMap E.Config × String × Option E.ExtError)
    (newClient : E.Config → Except E.ExtError E.Client)
    (newClientset : E.Config → Except E.ExtError E.ProwClientset) : Env where
  Config := E.Config
  Client := E.Client
  ProwClientset := E.ProwClientset
  ProwJobClient := E.ProwJobClient
  PodClient := E.PodClient
  ExtError := E.ExtError
  ParseRequestURI := E.ParseRequestURI
  Stat := E.Stat
  LoadClusterConfigs := load
  kubernetesNewForConfig := newClient
  prowNewForConfig := newClientset
  NewDryRunProwJobClient := E.NewDryRunProwJobClient
  ProwJobs := E.ProwJobs
  Pods := E.Pods

/-- The same instance, seen in the environment with other collaborators. -/
def retarget (E : Env)
    (load : String → String → GoMap E.Config × String × Option E.ExtError)
    (newClient : E.Config → Except E.ExtError E.Client)
    (newClientset : E.Config → Except E.ExtError E.ProwClientset)
    (o : KubernetesOptions E) :
    KubernetesOptions (withCollaborators E load newClient newClientset) where
  buildCluster := o.buildCluster
  kubeconfig := o.kubeconfig
  infraContext := o.infraContext
  DeckURI := o.DeckURI
  resolved := o.resolved
  dryRun := o.dryRun
  prowJobClientset := o.prowJobClientset
  kubernetesClientsByContext := o.kubernetesClientsByContext

/-- The map `{"a": 0, "b": 2}`; the stub constructor fails on config `0`. -/
def mapBadA : GoMap Nat := ((∅ : GoMap Nat).insert "b" 2).insert "a" 0

/-- An environment whose loader finds a ↦ 0, b ↦ 2 with default context
"b": the generic client constructor fails for context "a". -/
def envBadA : Env := stubEnv (mapBadA, "b", none)

/-! ## Lookup in a map built by a `range` loop -/

/-- The value a loop `for c, v := range l { if p c { r = v } }` leaves in
`r`: the value of the last visited entry whose key satisfies `p`. -/
def lastWhere {V : Type} (p : String → Prop) [DecidablePred p]
    (l : List (Sigma fun _ : String => V)) (r : Option V) : Option V :=
  l.foldl (fun r entry => if p entry.1 then some entry.2 else r) r

theorem lookup_foldl_insert {V W : Type} (f : String → String) (g : V → W)
    (l : List (Sigma fun _ : String => V)) (acc : GoMap W) (k : String) :
    (l.foldl (fun acc entry => acc.insert (f entry.1) (g entry.2)) acc).lookup k
      = lastWhere (fun c => f c = k) (l.map fun entry => ⟨entry.1, g entry.2⟩)
          (acc.lookup k) := by
  induction l generalizing acc with
  | nil => rfl
  | cons e rest ih =>
    simp only [List.foldl_cons, List.map_cons, lastWhere] at ih ⊢
    rw [ih]
    by_cases h : f e.1 = k
    · subst h; simp
    · rw [AList.lookup_insert_ne (Ne.symm h), if_neg h]

theorem lastWhere_congr {V : Type} (p q : String → Prop) [DecidablePred p] [DecidablePred q]
    (l : List (Sigma fun _ : String => V)) (r : Option V)
    (h : ∀ c ∈ l.keys, (p c ↔ q c)) : lastWhere p l r = lastWhere q l r := by
  induction l generalizing r with
  | nil => rfl
  | cons e rest ih =>
    have he : p e.1 ↔ q e.1 := h e.1 (by simp [List.keys])
    have hr : ∀ c ∈ rest.keys, (p c ↔ q c) := fun c hc => h c (by simp [List.keys] at hc ⊢; exact Or.inr hc)
    simp only [lastWhere, List.foldl_cons] at ih ⊢
    rw [ih _ hr]
    by_cases hp : p e.1
    · rw [if_pos hp, if_pos (he.1 hp)]
    · rw [if_neg hp, if_neg (fun hq => hp (he.2 hq))]

theorem lastWhere_none {V : Type} (p : String → Prop) [DecidablePred p]
    (l : List (Sigma fun _ : String => V)) (r : Option V)
    (h : ∀ c ∈ l.keys, ¬ p c) : lastWhere p l r = r := by
  induction l generalizing r with
  | nil => rfl
  | cons e rest ih =>
    have he : ¬ p e.1 := h e.1 (by simp [List.keys])
    have hr : ∀ c ∈ rest.keys, ¬ p c := fun c hc => h c (by simp [List.keys] at hc ⊢; exact Or.inr hc)
    simp only [lastWhere, List.foldl_cons] at ih ⊢
    rw [if_neg he, ih _ hr]

theorem lastWhere_eq_key {V : Type} (k : String)
    (l : List (Sigma fun _ : String => V)) (hl : l.NodupKeys) (r : Option V) :
    lastWhere (fun c => c = k) l r = (l.dlookup k).orElse fun _ => r := by
  induction l generalizing r with
  | nil => rfl
  | cons e rest ih =>
    obtain ⟨c, v⟩ := e
    rw [List.nodupKeys_cons] at hl
    by_cases hc : c = k
    · subst hc
      have hn : ∀ d ∈ rest.keys, ¬ d = c := fun d hd hdc => hl.1 (hdc ▸ hd)
      have := lastWhere_none (fun d => d = c) rest (some v) hn
      simp only [lastWhere, List.foldl_cons] at this ⊢
      simp [this]
    · have := ih hl.2 r
      simp only [lastWhere, List.foldl_cons] at this ⊢
      rw [if_neg hc, this, List.dlookup_cons_ne _ _ (Ne.symm hc)]

/-- The alias `contextsToAliases` gives to a context (lines 200-203). -/
theorem lookup_contextsToAliases {V : Type} (m : GoMap V) (i k : String) :
    (contextsToAliases m i).lookup k
      = lastWhere (fun c => (if (!(m.lookup DefaultClusterAlias).isSome && c == i) = true
          then DefaultClusterAlias else c) = k) m.entries none := by
  have := lookup_foldl_insert
    (fun c => if (!(m.lookup DefaultClusterAlias).isSome && c == i) = true
      then DefaultClusterAlias else c) (fun v : V => v) m.entries ∅ k
  simpa [contextsToAliases] using this


/-! ## Claims -/

/-- C1: `Validate` returns an error exactly when one of the five conditions
holds: a dry run without deck URI, a deck URI that does not parse, a
kubeconfig path whose stat fails, a context without kubeconfig, or both a
kubeconfig and a build-cluster path; otherwise it returns nil. -/
theorem Validate_error_iff (E : Env) (o : KubernetesOptions E) (dryRun : Bool) :
    (Validate E o dryRun).ret ≠ none ↔
      (dryRun = true ∧ o.DeckURI = "") ∨
      (o.DeckURI ≠ "" ∧ E.ParseRequestURI o.DeckURI ≠ none) ∨
      (o.kubeconfig ≠ "" ∧ E.Stat o.kubeconfig ≠ none) ∨
      (o.infraContext ≠ "" ∧ o.kubeconfig = "") ∨
      (o.kubeconfig ≠ "" ∧ o.buildCluster ≠ "") := by
  unfold Validate
  by_cases h1 : dryRun = true ∧ o.DeckURI = ""
  · simp [h1]
  by_cases h2 : o.DeckURI ≠ "" ∧ (E.ParseRequestURI o.DeckURI).isSome
  · have : E.ParseRequestURI o.DeckURI ≠ none := by
      intro hn; rw [hn] at h2; simp at h2
    simp [h1, h2, this]
  have h2' : ¬ (o.DeckURI ≠ "" ∧ E.ParseRequestURI o.DeckURI ≠ none) := by
    rintro ⟨ha, hb⟩
    exact h2 ⟨ha, Option.isSome_iff_ne_none.2 hb⟩
  rw [if_neg h1, if_neg h2]
  by_cases hk : o.kubeconfig = ""
  · by_cases hi : o.infraContext = "" <;> simp [h1, h2', hk, hi]
  · cases hs : E.Stat o.kubeconfig with
    | some err => simp [hk, hs]
    | none =>
      by_cases hb : o.buildCluster = "" <;> simp [h1, h2', hk, hs, hb]

/-- C2: on a map without the key "default", `contextsToAliases` holds under
"default" what the map holds under the infra context, holds every other key
of the map under its own name, and has no other entry; the infra context
itself is not a key of the result. -/
theorem contextsToAliases_without_literal_default {V : Type} (m : GoMap V)
    (i : String) (h : DefaultClusterAlias ∉ m) (k : String) :
    (contextsToAliases m i).lookup k =
      if k = DefaultClusterAlias then m.lookup i
      else if k = i then none
      else m.lookup k := by
  have hnone : m.lookup DefaultClusterAlias = none := AList.lookup_eq_none.2 h
  have hkeys : ∀ c ∈ m.entries.keys, c ≠ DefaultClusterAlias := by
    intro c hc hcd
    exact h (hcd ▸ hc)
  rw [lookup_contextsToAliases, hnone]
  simp only [Option.isSome_none, Bool.not_false, Bool.true_and, beq_iff_eq]
  by_cases hk : k = DefaultClusterAlias
  · rw [if_pos hk]
    rw [lastWhere_congr _ (fun c => c = i) m.entries none, lastWhere_eq_key i _ m.nodupKeys]
    · simp [AList.lookup]
    · intro c hc
      by_cases hci : c = i
      · simp [hci, hk]
      · simp [hci, hk, hkeys c hc]
  · rw [if_neg hk]
    by_cases hki : k = i
    · rw [if_pos hki]
      apply lastWhere_none
      intro c hc
      by_cases hci : c = i
      · rw [if_pos hci]; exact fun hd => hk hd.symm
      · rw [if_neg hci]; exact fun hd => hci (hd.trans hki)
    · rw [if_neg hki]
      rw [lastWhere_congr _ (fun c => c = k) m.entries none, lastWhere_eq_key k _ m.nodupKeys]
      · simp [AList.lookup]
      · intro c hc
        by_cases hci : c = i
        · rw [if_pos hci]
          constructor
          · exact fun hd => absurd hd.symm hk
          · exact fun hd => absurd (hd.symm.trans hci) hki
        · rw [if_neg hci]

/-- C2 on the map a ↦ 1, b ↦ 2 with infra context "a": the result is
default ↦ 1, b ↦ 2, and "a" is no key of it. -/
theorem contextsToAliases_without_literal_default_witness :
    DefaultClusterAlias ∉ mapAB ∧
    (contextsToAliases mapAB "a").lookup "default" = some 1 ∧
    (contextsToAliases mapAB "a").lookup "b" = some 2 ∧
    (contextsToAliases mapAB "a").lookup "a" = none :=
  ⟨by decide,
   (contextsToAliases_without_literal_default mapAB "a" (by decide) "default").trans (by decide),
   (contextsToAliases_without_literal_default mapAB "a" (by decide) "b").trans (by decide),
   (contextsToAliases_without_literal_default mapAB "a" (by decide) "a").trans (by decide)⟩

/-- C3: on a map that has the key "default", `contextsToAliases` returns the
same map whatever the infra context: the same keys, and the same client
under each key. -/
theorem contextsToAliases_with_literal_default {V : Type} (m : GoMap V)
    (i : String) (h : DefaultClusterAlias ∈ m) :
    (∀ k, (contextsToAliases m i).lookup k = m.lookup k) ∧
    (∀ k, k ∈ contextsToAliases m i ↔ k ∈ m) := by
  have hsome : (m.lookup DefaultClusterAlias).isSome = true := AList.lookup_isSome.2 h
  have hl : ∀ k, (contextsToAliases m i).lookup k = m.lookup k := by
    intro k
    rw [lookup_contextsToAliases, hsome]
    simp only [Bool.not_true, Bool.false_and, Bool.false_eq_true, if_false]
    rw [lastWhere_eq_key k _ m.nodupKeys]
    simp [AList.lookup]
  refine ⟨hl, fun k => ?_⟩
  rw [← AList.lookup_isSome, ← AList.lookup_isSome, hl]

/-- C3 on the map a ↦ 1, default ↦ 2 with infra context "a": the result
holds 1 under "a" and 2 under "default", and nothing under "b". -/
theorem contextsToAliases_with_literal_default_witness :
    DefaultClusterAlias ∈ mapADefault ∧
    (contextsToAliases mapADefault "a").lookup "a" = some 1 ∧
    (contextsToAliases mapADefault "a").lookup "default" = some 2 ∧
    ¬ "b" ∈ contextsToAliases mapADefault "a" :=
  ⟨by decide,
   ((contextsToAliases_with_literal_default mapADefault "a" (by decide)).1 "a").trans (by decide),
   ((contextsToAliases_with_literal_default mapADefault "a" (by decide)).1 "default").trans
     (by decide),
   fun hb => absurd
     (((contextsToAliases_with_literal_default mapADefault "a" (by decide)).2 "b").1 hb)
     (by decide)⟩

/-! ## Resolution and the accessors -/

theorem resolve_of_resolved (E : Env) (o : KubernetesOptions E) (dryRun : Bool)
    (h : o.resolved = true) : resolve E o dryRun = ⟨none, o, []⟩ := by
  simp [resolve, h]

theorem mem_foldl_buildClients (E : Env) (ns : String)
    (l : List (Sigma fun _ : String => E.Client)) (acc : Finset String × GoMap E.PodClient)
    (a : String) :
    a ∈ (l.foldl (fun acc entry =>
        ((insert entry.1 acc.1 : Finset String), acc.2.insert entry.1 (E.Pods entry.2 ns)))
        acc).1 ↔ a ∈ acc.1 ∨ a ∈ l.keys := by
  induction l generalizing acc with
  | nil => simp [List.keys]
  | cons e rest ih =>
    rw [List.foldl_cons, ih]
    simp only [Finset.mem_insert, List.keys_cons, List.mem_cons]
    tauto

theorem mem_buildClients_aliases (E : Env) (ns : String) (aliases : GoMap E.Client)
    (a : String) : a ∈ (buildClients E ns aliases).1 ↔ a ∈ aliases := by
  unfold buildClients
  rw [mem_foldl_buildClients]
  simp [AList.mem_keys, AList.keys]

/-- C4: on an instance resolved in non-dry-run mode, `BuildClusterClients`
fails exactly when some known alias is no key of the alias map; the error
then lists, in strictly ascending order, exactly the known aliases that are
no key of the alias map. -/
theorem BuildClusterClients_fails_iff_alias_missing (E : Env) (o : KubernetesOptions E)
    (ns : String) (dryRun : Bool) (knownAliases : Finset String)
    (hr : o.resolved = true) (hd : o.dryRun = false) :
    ((BuildClusterClients E o ns dryRun knownAliases).ret.isError = true ↔
      ∃ a ∈ knownAliases, a ∉ contextsToAliases o.kubernetesClientsByContext o.infraContext) ∧
    (∀ e, (BuildClusterClients E o ns dryRun knownAliases).ret = .error e →
      ∃ missing, e = .aliasesNotFound missing ∧ missing.Sorted (fun a b => a < b) ∧
        ∀ a, a ∈ missing ↔ a ∈ knownAliases ∧
          a ∉ contextsToAliases o.kubernetesClientsByContext o.infraContext) := by
  have hsub : knownAliases ⊆ (buildClients E ns
        (contextsToAliases o.kubernetesClientsByContext o.infraContext)).1 ↔
      ¬ ∃ a ∈ knownAliases,
        a ∉ contextsToAliases o.kubernetesClientsByContext o.infraContext := by
    rw [Finset.subset_iff]
    simp only [mem_buildClients_aliases]
    push_neg
    rfl
  unfold BuildClusterClients
  rw [if_neg (by simp [hd]), resolve_of_resolved E o dryRun hr]
  by_cases hs : knownAliases ⊆ (buildClients E ns
      (contextsToAliases o.kubernetesClientsByContext o.infraContext)).1
  · simp only [hs, not_true_eq_false, if_false]
    refine ⟨?_, fun e he => by cases he⟩
    simp only [Result.isError, Bool.false_eq_true, false_iff]
    exact hsub.1 hs
  · simp only [hs, not_false_eq_true, if_true]
    refine ⟨?_, ?_⟩
    · simp only [Result.isError, true_iff]
      exact not_not.1 (fun hn => hs (hsub.2 hn))
    · intro e he
      injection he with he
      refine ⟨_, he.symm, Finset.sort_sorted_lt _, fun a => ?_⟩
      rw [Finset.mem_sort, Finset.mem_sdiff, mem_buildClients_aliases]

theorem x_lt_y : ("x" : String) < "y" := by
  rw [String.lt_iff_toList_lt]; decide

/-- C4 on the cached clients a ↦ 1, b ↦ 2 with infra context "a", whose
aliases are "default" and "b": with the known aliases x and y the call
fails and the error lists x, y. -/
theorem BuildClusterClients_fails_iff_alias_missing_witness :
    resolvedAB.resolved = true ∧ resolvedAB.dryRun = false ∧
    (BuildClusterClients envAB resolvedAB "ns" false {"x", "y"}).ret
      = .error (.aliasesNotFound ["x", "y"]) := by
  refine ⟨rfl, rfl, ?_⟩
  have h := BuildClusterClients_fails_iff_alias_missing envAB resolvedAB "ns" false
    {"x", "y"} rfl rfl
  have hx : "x" ∉ contextsToAliases resolvedAB.kubernetesClientsByContext
      resolvedAB.infraContext := by decide
  have hy : "y" ∉ contextsToAliases resolvedAB.kubernetesClientsByContext
      resolvedAB.infraContext := by decide
  have herr := h.1.2 ⟨"x", by simp, hx⟩
  cases hret : (BuildClusterClients envAB resolvedAB "ns" false {"x", "y"}).ret with
  | value a => rw [hret] at herr; cases herr
  | nilDeref => rw [hret] at herr; cases herr
  | error e =>
    obtain ⟨missing, he, hsorted, hmem⟩ := h.2 e hret
    have hxy : List.Sorted (fun a b : String => a < b) ["x", "y"] := by
      simp only [List.sorted_cons, List.mem_cons, List.mem_singleton, List.not_mem_nil,
        forall_eq_or_imp, forall_eq, List.sorted_nil, and_true, IsEmpty.forall_iff,
        implies_true]
      exact x_lt_y
    have hperm : missing.Perm ["x", "y"] := by
      rw [List.perm_ext_iff_of_nodup hsorted.nodup hxy.nodup]
      intro a
      rw [hmem a]
      simp only [Finset.mem_insert, Finset.mem_singleton, List.mem_cons, List.mem_singleton,
        List.not_mem_nil, or_false]
      constructor
      · exact fun ha => ha.1
      · rintro (rfl | rfl)
        · exact ⟨Or.inl rfl, hx⟩
        · exact ⟨Or.inr rfl, hy⟩
    rw [he, List.eq_of_perm_of_sorted hperm hsorted hxy]

/-- C5 at a never resolved instance with the deck URI set: a first call
with dryRun = true to `InfrastructureClusterClient` and to `ProwJobClientset`
returns a nil client with a nil error, and `BuildClusterClients` with no
known alias returns the empty map with a nil error; each only records the
dry-run flag. -/
theorem accessors_first_dry_run_call_returns_no_error :
    (InfrastructureClusterClient envAB (fresh envAB "" "" "" "http://deck") true).ret
      = .value none ∧
    (ProwJobClientset envAB (fresh envAB "" "" "" "http://deck") "ns" true).ret
      = .value none ∧
    ((BuildClusterClients envAB (fresh envAB "" "" "" "http://deck") "ns" true ∅).ret.isError
      = false) ∧
    (InfrastructureClusterClient envAB (fresh envAB "" "" "" "http://deck") true).o.dryRun
      = true := by
  refine ⟨rfl, rfl, ?_, rfl⟩
  simp [BuildClusterClients, resolve, fresh, Result.isError]

/-- C6: on an instance whose recorded dry-run flag is set, each of
`InfrastructureClusterClient`, `ProwJobClientset` and `BuildClusterClients`
returns its dry-run error and no client, whatever the arguments, leaves the
instance as it was and calls neither the loader nor a constructor. -/
theorem accessors_fail_in_dry_run_mode (E : Env) (o : KubernetesOptions E) (ns : String)
    (dryRun : Bool) (knownAliases : Finset String) (h : o.dryRun = true) :
    InfrastructureClusterClient E o dryRun = ⟨.error .noDryRunKubernetesClient, o, []⟩ ∧
    ProwJobClientset E o ns dryRun = ⟨.error .noDryRunClientset, o, []⟩ ∧
    BuildClusterClients E o ns dryRun knownAliases = ⟨.error .noDryRunPodClient, o, []⟩ := by
  simp [InfrastructureClusterClient, ProwJobClientset, BuildClusterClients, h]

/-- C6 on the instance a call of resolve(true) leaves behind, with the
argument dryRun = false. -/
theorem accessors_fail_in_dry_run_mode_witness :
    (resolve envAB (fresh envAB "" "" "" "http://deck") true).o.dryRun = true ∧
    (InfrastructureClusterClient envAB
        (resolve envAB (fresh envAB "" "" "" "http://deck") true).o false).ret.isError
      = true ∧
    (InfrastructureClusterClient envAB
        (resolve envAB (fresh envAB "" "" "" "http://deck") true).o false).calls = [] :=
  ⟨rfl,
   by rw [(accessors_fail_in_dry_run_mode envAB
      (resolve envAB (fresh envAB "" "" "" "http://deck") true).o "ns" false ∅ rfl).1]; rfl,
   by rw [(accessors_fail_in_dry_run_mode envAB
      (resolve envAB (fresh envAB "" "" "" "http://deck") true).o "ns" false ∅ rfl).1]⟩

/-- C7 as stated fails: after resolve(true) on a never resolved instance the
resolved flag is still false, and a following resolve(false) calls the
loader and the constructors, records dryRun = false and marks the instance
resolved. -/
theorem resolve_dry_run_does_not_mark_resolved :
    (fresh envAB "" "" "" "http://deck").resolved = false ∧
    (resolve envAB (fresh envAB "" "" "" "http://deck") true).o.resolved = false ∧
    (resolve envAB (resolve envAB (fresh envAB "" "" "" "http://deck") true).o false).calls
      = [.LoadClusterConfigs "" "", .kubernetesNewForConfig (1 : Nat),
         .kubernetesNewForConfig (2 : Nat), .prowNewForConfig (1 : Nat)] ∧
    (resolve envAB (resolve envAB (fresh envAB "" "" "" "http://deck") true).o false).o.dryRun
      = false ∧
    (resolve envAB (resolve envAB (fresh envAB "" "" "" "http://deck") true).o false).o.resolved
      = true :=
  ⟨rfl, rfl, rfl, rfl, rfl⟩

/-- C7 amended: resolve(true) on an unresolved instance returns success
without calling the loader or a constructor and changes nothing but the
recorded dry-run flag, which becomes true; the resolved flag stays false, so
a following resolve(false) is a full resolution: it does what resolve(false)
does on the original instance, starting with the call to the loader, and
never leaves the recorded dry-run flag true. -/
theorem resolve_dry_run_then_real (E : Env) (o : KubernetesOptions E)
    (h : o.resolved = false) :
    resolve E o true = ⟨none, { o with dryRun := true }, []⟩ ∧
    (resolve E o true).o.resolved = false ∧
    resolve E (resolve E o true).o false = resolve E o false ∧
    (resolve E (resolve E o true).o false).calls.head?
      = some (.LoadClusterConfigs o.kubeconfig o.buildCluster) ∧
    (resolve E (resolve E o true).o false).o.dryRun = false := by
  have h1 : resolve E o true = ⟨none, { o with dryRun := true }, []⟩ := by
    simp [resolve, h]
  have h2 : resolve E (resolve E o true).o false = resolve E o false := by
    rw [h1]; simp [resolve, h]
  refine ⟨h1, by rw [h1]; exact h, h2, ?_, ?_⟩
  · rw [h2]
    simp only [resolve, h, Bool.false_eq_true, if_false]
    split
    · rfl
    · split
      · rfl
      · split <;> rfl
  · rw [h2]
    simp only [resolve, h, Bool.false_eq_true, if_false]
    split
    · rfl
    · split
      · split <;> rfl
      · split
        · split <;> rfl
        · split <;> rfl

/-- C7 amended, on a never resolved instance. -/
theorem resolve_dry_run_then_real_witness :
    (fresh envAB "" "" "" "http://deck").resolved = false ∧
    (resolve envAB (fresh envAB "" "" "" "http://deck") true).o.resolved = false ∧
    (resolve envAB (resolve envAB (fresh envAB "" "" "" "http://deck") true).o false).o.dryRun
      = false :=
  ⟨rfl, (resolve_dry_run_then_real envAB (fresh envAB "" "" "" "http://deck") rfl).2.1,
   (resolve_dry_run_then_real envAB (fresh envAB "" "" "" "http://deck") rfl).2.2.2.2⟩

theorem Validate_frame (E : Env) (o : KubernetesOptions E) (dryRun : Bool) :
    (Validate E o dryRun).o = o ∧ (Validate E o dryRun).calls = [] := by
  unfold Validate
  split
  · exact ⟨rfl, rfl⟩
  · split
    · exact ⟨rfl, rfl⟩
    · split
      · exact ⟨rfl, rfl⟩
      · split
        · exact ⟨rfl, rfl⟩
        · split <;> exact ⟨rfl, rfl⟩

/-- C8: once the resolved flag is true, `resolve` returns success for either
argument, and `resolve`, `Validate`, `ProwJobClientset`, `ProwJobClient`,
`InfrastructureClusterClient` and `BuildClusterClients` leave every field of
the instance as it was and call neither the loader nor a constructor. -/
theorem resolved_instance_is_never_mutated (E : Env) (o : KubernetesOptions E)
    (ns : String) (dryRun : Bool) (knownAliases : Finset String) (h : o.resolved = true) :
    resolve E o dryRun = ⟨none, o, []⟩ ∧
    ((Validate E o dryRun).o = o ∧ (Validate E o dryRun).calls = []) ∧
    ((ProwJobClientset E o ns dryRun).o = o ∧ (ProwJobClientset E o ns dryRun).calls = []) ∧
    ((ProwJobClient E o ns dryRun).o = o ∧ (ProwJobClient E o ns dryRun).calls = []) ∧
    ((InfrastructureClusterClient E o dryRun).o = o ∧
      (InfrastructureClusterClient E o dryRun).calls = []) ∧
    ((BuildClusterClients E o ns dryRun knownAliases).o = o ∧
      (BuildClusterClients E o ns dryRun knownAliases).calls = []) := by
  have hres := resolve_of_resolved E o dryRun h
  refine ⟨hres, Validate_frame E o dryRun, ?_, ?_, ?_, ?_⟩
  · unfold ProwJobClientset
    rw [hres]
    split <;> exact ⟨rfl, rfl⟩
  · unfold ProwJobClient
    rw [hres]
    dsimp only
    split
    · exact ⟨rfl, rfl⟩
    · split <;> exact ⟨rfl, rfl⟩
  · unfold InfrastructureClusterClient
    rw [hres]
    split <;> exact ⟨rfl, rfl⟩
  · unfold BuildClusterClients
    rw [hres]
    dsimp only
    split
    · exact ⟨rfl, rfl⟩
    · split <;> exact ⟨rfl, rfl⟩

/-- C8 on an instance resolved in non-dry-run mode: a further resolve(true)
succeeds and changes nothing, and `ProwJobClient` with dryRun = true leaves
the recorded dry-run flag false. -/
theorem resolved_instance_is_never_mutated_witness :
    resolvedAB.resolved = true ∧
    (resolve envAB resolvedAB true).ret = none ∧
    (resolve envAB resolvedAB true).o.dryRun = false ∧
    (ProwJobClient envAB resolvedAB "ns" true).o.dryRun = false ∧
    (ProwJobClient envAB resolvedAB "ns" true).calls = [] := by
  have h := resolved_instance_is_never_mutated envAB resolvedAB "ns" true ∅ rfl
  refine ⟨rfl, ?_, ?_, ?_, h.2.2.2.1.2⟩
  · rw [h.1]
  · rw [h.1]; rfl
  · rw [h.2.2.2.1.1]; rfl

/-- C9: on an unresolved instance, `ProwJobClient` with dryRun = true
succeeds with the dry-run client made from the configured deck URI and calls
neither the loader nor a constructor; and when resolve(false) succeeds on
the instance, `ProwJobClient` with dryRun = false returns the job client, for
the given namespace, of the clientset that the resolution cached. -/
theorem ProwJobClient_of_unresolved (E : Env) (o : KubernetesOptions E) (ns : String)
    (h : o.resolved = false) :
    ((ProwJobClient E o ns true).ret = .value (E.NewDryRunProwJobClient o.DeckURI) ∧
      (ProwJobClient E o ns true).calls = []) ∧
    ((resolve E o false).ret = none →
      ∃ clientset, (resolve E o false).o.prowJobClientset = some clientset ∧
        (ProwJobClient E o ns false).o.prowJobClientset = some clientset ∧
        (ProwJobClient E o ns false).ret = .value (E.ProwJobs clientset ns)) := by
  constructor
  · simp [ProwJobClient, resolve, h]
  · intro hok
    have key : (resolve E o false).o.dryRun = false ∧
        ∃ clientset, (resolve E o false).o.prowJobClientset = some clientset := by
      revert hok
      by_cases hi : o.infraContext = ""
      all_goals
        simp only [resolve, h, hi, Bool.false_eq_true, if_false, if_true]
        split
        · intro hok; cases hok
        · split
          · intro hok; cases hok
          · split
            · intro hok; cases hok
            · intro _; exact ⟨rfl, _, rfl⟩
    obtain ⟨hd, clientset, hc⟩ := key
    refine ⟨clientset, hc, ?_, ?_⟩
    · simp [ProwJobClient, hok, hd, hc]
    · simp [ProwJobClient, hok, hd, hc]

/-- C9 on a never resolved instance whose loader finds a ↦ 1, b ↦ 2 with
default context "a": the dry-run call returns the client for the deck URI,
the real call the job client of clientset 1 for the namespace. -/
theorem ProwJobClient_of_unresolved_witness :
    (fresh envAB "" "" "" "http://deck").resolved = false ∧
    (resolve envAB (fresh envAB "" "" "" "http://deck") false).ret = none ∧
    (ProwJobClient envAB (fresh envAB "" "" "" "http://deck") "ns" true).ret
      = .value (envAB.NewDryRunProwJobClient "http://deck") ∧
    (ProwJobClient envAB (fresh envAB "" "" "" "http://deck") "ns" false).ret
      = .value (envAB.ProwJobs (1 : Nat) "ns") := by
  have h := ProwJobClient_of_unresolved envAB (fresh envAB "" "" "" "http://deck") "ns" rfl
  refine ⟨rfl, rfl, h.1.1, ?_⟩
  obtain ⟨clientset, hc, _, hret⟩ := h.2 rfl
  have : clientset = (1 : Nat) := by
    have h1 : (resolve envAB (fresh envAB "" "" "" "http://deck") false).o.prowJobClientset
        = some (1 : Nat) := rfl
    rw [h1] at hc
    exact (Option.some.inj hc).symm
  rw [hret, this]

/-- C10 at a loader that returns a non-nil error together with the contexts
a ↦ 1, b ↦ 2 and the default context "a": resolve(false) on a never
resolved instance returns nil and marks the instance resolved. -/
theorem resolve_drops_loader_error :
    (envABErr.LoadClusterConfigs "" "").2.2 = some "kubecfg: invalid configuration" ∧
    (fresh envABErr "" "" "" "").resolved = false ∧
    (resolve envABErr (fresh envABErr "" "" "" "") false).ret = none ∧
    (resolve envABErr (fresh envABErr "" "" "" "") false).o.resolved = true :=
  ⟨rfl, rfl, rfl, rfl⟩

/-! ## The steps of a non-dry-run resolution -/

/-- The four ways resolve(false) ends on an unresolved instance. -/
theorem resolve_false_of_unresolved (E : Env) (o : KubernetesOptions E)
    (h : o.resolved = false) :
    resolve E o false =
      match newClients E (loadedConfigs E o).entries ∅ with
      | (.error err, made) =>
        ⟨some (.construction err), { o with dryRun := false },
          .LoadClusterConfigs o.kubeconfig o.buildCluster :: made⟩
      | (.ok clients, made) =>
        match (loadedConfigs E o).lookup (infraContextOf E o) with
        | none =>
          ⟨some (.infraContextNotFound (infraContextOf E o)),
            { o with dryRun := false, infraContext := infraContextOf E o },
            .LoadClusterConfigs o.kubeconfig o.buildCluster :: made⟩
        | some infraConfig =>
          match E.prowNewForConfig infraConfig with
          | .error err =>
            ⟨some (.construction err),
              { o with dryRun := false, infraContext := infraContextOf E o },
              .LoadClusterConfigs o.kubeconfig o.buildCluster ::
                (made ++ [.prowNewForConfig infraConfig])⟩
          | .ok pjClient =>
            ⟨none,
              { o with
                dryRun := false
                infraContext := infraContextOf E o
                prowJobClientset := some pjClient
                kubernetesClientsByContext := clients
                resolved := true },
              .LoadClusterConfigs o.kubeconfig o.buildCluster ::
                (made ++ [.prowNewForConfig infraConfig])⟩ := by
  unfold resolve loadedConfigs infraContextOf
  rw [if_neg (by simp [h])]
  simp only [Bool.false_eq_true, if_false]
  rcases newClients E (E.LoadClusterConfigs o.kubeconfig o.buildCluster).1.entries ∅
    with ⟨err | clients, made⟩
  · rfl
  · by_cases hi : o.infraContext = ""
    · rw [if_pos hi, if_pos hi]
    · rw [if_neg hi, if_neg hi]

theorem newClients_ok_of_forall (E : Env) (l : List (Sigma fun _ : String => E.Config))
    (acc : GoMap E.Client)
    (h : ∀ entry ∈ l, ∃ client, E.kubernetesNewForConfig entry.2 = .ok client) :
    ∃ clients made, newClients E l acc = (.ok clients, made) := by
  induction l generalizing acc with
  | nil => exact ⟨acc, [], rfl⟩
  | cons e rest ih =>
    obtain ⟨client, hc⟩ := h e (List.mem_cons_self _ _)
    obtain ⟨clients, made, hr⟩ :=
      ih (acc.insert e.1 client) (fun entry he => h entry (List.mem_cons_of_mem _ he))
    refine ⟨clients, .kubernetesNewForConfig e.2 :: made, ?_⟩
    obtain ⟨context, config⟩ := e
    simp only [newClients] at hc ⊢
    rw [hc]
    simp only [hr]

theorem newClients_error_of_exists (E : Env) (l : List (Sigma fun _ : String => E.Config))
    (acc : GoMap E.Client)
    (h : ∃ entry ∈ l, ∃ err, E.kubernetesNewForConfig entry.2 = .error err) :
    ∃ err made, newClients E l acc = (.error err, made) ∧
      ∃ entry ∈ l, E.kubernetesNewForConfig entry.2 = .error err := by
  induction l generalizing acc with
  | nil => obtain ⟨entry, he, _⟩ := h; cases he
  | cons e rest ih =>
    obtain ⟨context, config⟩ := e
    cases hc : E.kubernetesNewForConfig config with
    | error err =>
      refine ⟨err, [.kubernetesNewForConfig config], ?_, ⟨context, config⟩,
        List.mem_cons_self _ _, hc⟩
      simp only [newClients, hc]
    | ok client =>
      have hrest : ∃ entry ∈ rest, ∃ err, E.kubernetesNewForConfig entry.2 = .error err := by
        obtain ⟨entry, he, err, herr⟩ := h
        rcases List.mem_cons.1 he with rfl | he
        · rw [hc] at herr; cases herr
        · exact ⟨entry, he, err, herr⟩
      obtain ⟨err, made, hr, entry, he, herr⟩ := ih (acc.insert context client) hrest
      refine ⟨err, .kubernetesNewForConfig config :: made, ?_, entry,
        List.mem_cons_of_mem _ he, herr⟩
      simp only [newClients, hc, hr]

theorem newClients_calls (E : Env) (l : List (Sigma fun _ : String => E.Config))
    (acc : GoMap E.Client) (config : E.Config) :
    Call.prowNewForConfig config ∉ (newClients E l acc).2 := by
  induction l generalizing acc with
  | nil => simp [newClients]
  | cons e rest ih =>
    obtain ⟨context, cfg⟩ := e
    cases hc : E.kubernetesNewForConfig cfg with
    | error err => simp [newClients, hc]
    | ok client =>
      have := ih (acc.insert context client)
      simp only [newClients, hc, List.mem_cons, not_or]
      refine ⟨?_, this⟩
      intro hh
      cases hh

theorem lookup_newClients (E : Env) (l : List (Sigma fun _ : String => E.Config))
    (hl : l.NodupKeys) (acc clients : GoMap E.Client) (made : List (Call E))
    (h : newClients E l acc = (.ok clients, made)) (k : String) :
    (∀ config, l.dlookup k = some config →
      ∃ client, E.kubernetesNewForConfig config = .ok client ∧
        clients.lookup k = some client) ∧
    (l.dlookup k = none → clients.lookup k = acc.lookup k) := by
  induction l generalizing acc made with
  | nil =>
    simp only [newClients, Prod.mk.injEq, Except.ok.injEq] at h
    simp [h.1]
  | cons e rest ih =>
    obtain ⟨context, cfg⟩ := e
    rw [List.nodupKeys_cons] at hl
    cases hc : E.kubernetesNewForConfig cfg with
    | error err => simp [newClients, hc] at h
    | ok client =>
      simp only [newClients, hc, Prod.mk.injEq] at h
      have ih' := ih hl.2 (acc.insert context client) (newClients E rest
        (acc.insert context client)).2 (Prod.ext h.1 rfl)
      by_cases hk : context = k
      · subst hk
        have hnone : rest.dlookup context = none := List.dlookup_eq_none.2 hl.1
        rw [List.dlookup_cons_eq]
        refine ⟨fun config hcfg => ?_, fun hh => by cases hh⟩
        cases hcfg
        exact ⟨client, hc, by rw [ih'.2 hnone, AList.lookup_insert]⟩
      · rw [List.dlookup_cons_ne _ _ (Ne.symm hk)]
        refine ⟨ih'.1, fun hn => ?_⟩
        rw [ih'.2 hn, AList.lookup_insert_ne (Ne.symm hk)]

/-- C11: on an unresolved instance resolve(true) returns success, calls
neither the loader nor a constructor and changes no field but the recorded
dry-run flag; with any other loader and any other constructors the result,
the resulting instance and the empty list of calls are the same. -/
theorem resolve_dry_run_calls_nothing (E : Env) (o : KubernetesOptions E)
    (h : o.resolved = false) :
    resolve E o true = ⟨none, { o with dryRun := true }, []⟩ ∧
    ∀ (load : String → String → GoMap E.Config × String × Option E.ExtError)
      (newClient : E.Config → Except E.ExtError E.Client)
      (newClientset : E.Config → Except E.ExtError E.ProwClientset),
      (resolve (withCollaborators E load newClient newClientset)
          (retarget E load newClient newClientset o) true).ret = none ∧
      (resolve (withCollaborators E load newClient newClientset)
          (retarget E load newClient newClientset o) true).o
        = retarget E load newClient newClientset (resolve E o true).o ∧
      (resolve (withCollaborators E load newClient newClientset)
          (retarget E load newClient newClientset o) true).calls = [] := by
  have h1 : resolve E o true = ⟨none, { o with dryRun := true }, []⟩ := by
    simp [resolve, h]
  refine ⟨h1, fun load newClient newClientset => ?_⟩
  have h2 : (retarget E load newClient newClientset o).resolved = false := h
  rw [h1]
  refine ⟨?_, ?_, ?_⟩ <;> simp [resolve, h2, retarget, h]

/-- C11 on a never resolved instance, also with a loader and constructors
that all fail: success, no call, and only the dry-run flag is recorded. -/
theorem resolve_dry_run_calls_nothing_witness :
    (fresh envAB "" "/kube" "a" "http://deck").resolved = false ∧
    (resolve envAB (fresh envAB "" "/kube" "a" "http://deck") true).ret = none ∧
    (resolve envAB (fresh envAB "" "/kube" "a" "http://deck") true).calls = [] ∧
    (resolve envAB (fresh envAB "" "/kube" "a" "http://deck") true).o.dryRun = true ∧
    (resolve envAB (fresh envAB "" "/kube" "a" "http://deck") true).o.infraContext = "a" ∧
    (resolve
      (withCollaborators envAB (fun _ _ => (∅, "", some "unreachable"))
        (fun _ => .error "refused") (fun _ => .error "refused"))
      (retarget envAB (fun _ _ => (∅, "", some "unreachable"))
        (fun _ => .error "refused") (fun _ => .error "refused")
        (fresh envAB "" "/kube" "a" "http://deck")) true).ret = none := by
  have h := resolve_dry_run_calls_nothing envAB (fresh envAB "" "/kube" "a" "http://deck") rfl
  refine ⟨rfl, ?_, ?_, ?_, ?_, (h.2 _ _ _).1⟩
  · rw [h.1]
  · rw [h.1]
  · rw [h.1]
  · rw [h.1]; rfl

/-- C12: on an unresolved instance, when the infra context (the explicit
context value if non-empty, else the default context of the loader) is no
key of the loaded config set, resolve(false) returns an error and the
instance stays unresolved; when every client construction succeeds the error
is the not-found error quoting that infra context. -/
theorem resolve_infra_context_not_found (E : Env) (o : KubernetesOptions E)
    (h : o.resolved = false) (hctx : infraContextOf E o ∉ loadedConfigs E o) :
    (resolve E o false).ret ≠ none ∧
    (resolve E o false).o.resolved = false ∧
    ((∀ entry ∈ (loadedConfigs E o).entries,
        ∃ client, E.kubernetesNewForConfig entry.2 = .ok client) →
      (resolve E o false).ret = some (.infraContextNotFound (infraContextOf E o))) := by
  have hnone : (loadedConfigs E o).lookup (infraContextOf E o) = none :=
    AList.lookup_eq_none.2 hctx
  rw [resolve_false_of_unresolved E o h, hnone]
  rcases hn : newClients E (loadedConfigs E o).entries ∅ with ⟨err | clients, made⟩
  · refine ⟨by simp, h, fun hall => ?_⟩
    obtain ⟨clients, made', hok⟩ := newClients_ok_of_forall E _ ∅ hall
    rw [hok] at hn
    cases hn
  · exact ⟨by simp, h, fun _ => rfl⟩

/-- C12 with the explicit context "zzz" against the loaded contexts a and
b, whose clients can all be constructed: the error quotes "zzz". -/
theorem resolve_infra_context_not_found_witness :
    (fresh envAB "" "/kube" "zzz" "").resolved = false ∧
    infraContextOf envAB (fresh envAB "" "/kube" "zzz" "") = "zzz" ∧
    "zzz" ∉ loadedConfigs envAB (fresh envAB "" "/kube" "zzz" "") ∧
    (resolve envAB (fresh envAB "" "/kube" "zzz" "") false).ret
      = some (.infraContextNotFound "zzz") ∧
    (resolve envAB (fresh envAB "" "/kube" "zzz" "") false).o.resolved = false := by
  have hctx : infraContextOf envAB (fresh envAB "" "/kube" "zzz" "")
      ∉ loadedConfigs envAB (fresh envAB "" "/kube" "zzz" "") := by decide
  have h := resolve_infra_context_not_found envAB (fresh envAB "" "/kube" "zzz" "") rfl hctx
  refine ⟨rfl, rfl, hctx, h.2.2 ?_, h.2.1⟩
  intro entry he
  have he' : entry ∈ [(⟨"a", 1⟩ : Sigma fun _ : String => Nat), ⟨"b", 2⟩] := he
  simp only [List.mem_cons, List.mem_singleton, List.not_mem_nil, or_false] at he'
  rcases he' with rfl | rfl
  · exact ⟨(1 : Nat), rfl⟩
  · exact ⟨(2 : Nat), rfl⟩

theorem resolve_false_eq_none (E : Env) (o : KubernetesOptions E)
    (h : o.resolved = false) (hok : (resolve E o false).ret = none) :
    ∃ clients made infraConfig pjClient,
      newClients E (loadedConfigs E o).entries ∅ = (.ok clients, made) ∧
      (loadedConfigs E o).lookup (infraContextOf E o) = some infraConfig ∧
      E.prowNewForConfig infraConfig = .ok pjClient ∧
      (resolve E o false).o =
        { o with
          dryRun := false
          infraContext := infraContextOf E o
          prowJobClientset := some pjClient
          kubernetesClientsByContext := clients
          resolved := true } := by
  rw [resolve_false_of_unresolved E o h] at hok ⊢
  rcases hn : newClients E (loadedConfigs E o).entries ∅ with ⟨err | clients, made⟩
  · rw [hn] at hok; cases hok
  · rw [hn] at hok
    cases hl : (loadedConfigs E o).lookup (infraContextOf E o) with
    | none => rw [hl] at hok; cases hok
    | some infraConfig =>
      rw [hl] at hok
      cases hp : E.prowNewForConfig infraConfig with
      | error err => simp only [hp] at hok; cases hok
      | ok pjClient => exact ⟨clients, made, infraConfig, pjClient, rfl, rfl, hp, by simp only [hp]⟩

theorem resolve_false_ne_none (E : Env) (o : KubernetesOptions E)
    (h : o.resolved = false) (herr : (resolve E o false).ret ≠ none) :
    (resolve E o false).o = { o with dryRun := false } ∨
    (resolve E o false).o = { o with dryRun := false, infraContext := infraContextOf E o } := by
  rw [resolve_false_of_unresolved E o h] at herr ⊢
  rcases hn : newClients E (loadedConfigs E o).entries ∅ with ⟨err | clients, made⟩
  · exact Or.inl rfl
  · rw [hn] at herr
    cases hl : (loadedConfigs E o).lookup (infraContextOf E o) with
    | none => exact Or.inr rfl
    | some infraConfig =>
      rw [hl] at herr
      cases hp : E.prowNewForConfig infraConfig with
      | error err => right; simp only [hp]
      | ok pjClient => simp only [hp] at herr; exact absurd rfl herr

theorem lookup_cache_of_resolve (E : Env) (o : KubernetesOptions E)
    (h : o.resolved = false) (hok : (resolve E o false).ret = none) (context : String) :
    (∀ config, (loadedConfigs E o).lookup context = some config →
      ∃ client, E.kubernetesNewForConfig config = .ok client ∧
        (resolve E o false).o.kubernetesClientsByContext.lookup context = some client) ∧
    ((loadedConfigs E o).lookup context = none →
      (resolve E o false).o.kubernetesClientsByContext.lookup context = none) := by
  obtain ⟨clients, made, infraConfig, pjClient, hn, _, _, ho⟩ := resolve_false_eq_none E o h hok
  have := lookup_newClients E (loadedConfigs E o).entries (loadedConfigs E o).nodupKeys ∅
    clients made hn context
  rw [ho]
  exact ⟨this.1, fun hnone => (this.2 hnone).trans (AList.lookup_empty _)⟩

/-- C13: on an unresolved instance, whenever `resolve` returns an error the
resolved flag is still false and the clientset and the client cache hold
their earlier values; whenever resolve(false) returns success the resolved
flag is true, the clientset is the one constructed from the config of the
infra context, and the cache holds, for every loaded context, the client
constructed from its config, and nothing else. -/
theorem resolve_no_partial_success (E : Env) (o : KubernetesOptions E) (dryRun : Bool)
    (h : o.resolved = false) :
    ((resolve E o dryRun).ret ≠ none →
      (resolve E o dryRun).o.resolved = false ∧
      (resolve E o dryRun).o.prowJobClientset = o.prowJobClientset ∧
      (resolve E o dryRun).o.kubernetesClientsByContext = o.kubernetesClientsByContext) ∧
    ((resolve E o false).ret = none →
      (resolve E o false).o.resolved = true ∧
      (∃ infraConfig pjClient,
        (loadedConfigs E o).lookup (infraContextOf E o) = some infraConfig ∧
        E.prowNewForConfig infraConfig = .ok pjClient ∧
        (resolve E o false).o.prowJobClientset = some pjClient) ∧
      ∀ context,
        (∀ config, (loadedConfigs E o).lookup context = some config →
          ∃ client, E.kubernetesNewForConfig config = .ok client ∧
            (resolve E o false).o.kubernetesClientsByContext.lookup context = some client) ∧
        ((loadedConfigs E o).lookup context = none →
          (resolve E o false).o.kubernetesClientsByContext.lookup context = none)) := by
  constructor
  · intro herr
    cases dryRun with
    | true => exact absurd (by simp [resolve, h]) herr
    | false =>
      rcases resolve_false_ne_none E o h herr with ho | ho <;> rw [ho] <;> exact ⟨h, rfl, rfl⟩
  · intro hok
    obtain ⟨clients, made, infraConfig, pjClient, _, hl, hp, ho⟩ :=
      resolve_false_eq_none E o h hok
    refine ⟨by rw [ho], ⟨infraConfig, pjClient, hl, hp, by rw [ho]⟩, ?_⟩
    exact lookup_cache_of_resolve E o h hok

/-- C13 on two never resolved instances: with the explicit context "zzz"
the resolution fails and leaves the flag false and the clientset nil; with
the default context it succeeds, sets the flag and caches client 2 for
context "b". -/
theorem resolve_no_partial_success_witness :
    (fresh envAB "" "/kube" "zzz" "").resolved = false ∧
    (resolve envAB (fresh envAB "" "/kube" "zzz" "") false).ret ≠ none ∧
    (resolve envAB (fresh envAB "" "/kube" "zzz" "") false).o.resolved = false ∧
    (resolve envAB (fresh envAB "" "/kube" "zzz" "") false).o.prowJobClientset = none ∧
    (fresh envAB "" "" "" "").resolved = false ∧
    (resolve envAB (fresh envAB "" "" "" "") false).ret = none ∧
    (resolve envAB (fresh envAB "" "" "" "") false).o.resolved = true ∧
    (resolve envAB (fresh envAB "" "" "" "") false).o.kubernetesClientsByContext.lookup "b"
      = some (2 : Nat) := by
  have herr : (resolve envAB (fresh envAB "" "/kube" "zzz" "") false).ret ≠ none := by
    intro hn; cases hn
  have h1 := (resolve_no_partial_success envAB (fresh envAB "" "/kube" "zzz" "") false rfl).1
    herr
  have h2 := (resolve_no_partial_success envAB (fresh envAB "" "" "" "") false rfl).2 rfl
  refine ⟨rfl, herr, h1.1, h1.2.1, rfl, rfl, h2.1, ?_⟩
  obtain ⟨client, hc, hl⟩ := (h2.2.2 "b").1 (2 : Nat) rfl
  rw [hl]
  have : (Except.ok (2 : Nat) : Except String Nat) = .ok client := hc
  cases this
  rfl

/-- C14: on an unresolved instance, when `InfrastructureClusterClient` with
dryRun = false succeeds, the returned client is not nil: it is the client
constructed from the config the loaded config set holds for the infra
context (the explicit context value if non-empty, else the default context
of the loader), and it is the entry the cache holds for that context. -/
theorem InfrastructureClusterClient_of_unresolved (E : Env) (o : KubernetesOptions E)
    (returned : Option E.Client) (h : o.resolved = false)
    (hret : (InfrastructureClusterClient E o false).ret = .value returned) :
    ∃ config client,
      (loadedConfigs E o).lookup (infraContextOf E o) = some config ∧
      E.kubernetesNewForConfig config = .ok client ∧
      returned = some client ∧
      (InfrastructureClusterClient E o false).o.kubernetesClientsByContext.lookup
        (infraContextOf E o) = some client := by
  unfold InfrastructureClusterClient at hret ⊢
  by_cases hd : o.dryRun = true
  · rw [if_pos hd] at hret; cases hret
  · rw [if_neg hd] at hret ⊢
    cases hok : (resolve E o false).ret with
    | some err => simp only [hok] at hret; cases hret
    | none =>
      simp only [hok] at hret ⊢
      obtain ⟨clients, made, infraConfig, pjClient, _, hl, _, ho⟩ :=
        resolve_false_eq_none E o h hok
      obtain ⟨client, hc, hcache⟩ :=
        (lookup_cache_of_resolve E o h hok (infraContextOf E o)).1 infraConfig hl
      have hctx : (resolve E o false).o.infraContext = infraContextOf E o := by rw [ho]
      rw [hctx, hcache] at hret
      exact ⟨infraConfig, client, hl, hc, (Result.value.inj hret).symm, hcache⟩

/-- C14 on a never resolved instance without explicit context, whose
loader reports the default context "a" with config 1: the client returned
is client 1. -/
theorem InfrastructureClusterClient_of_unresolved_witness :
    (fresh envAB "" "" "" "").resolved = false ∧
    (InfrastructureClusterClient envAB (fresh envAB "" "" "" "") false).ret
      = .value (some (1 : Nat)) ∧
    infraContextOf envAB (fresh envAB "" "" "" "") = "a" ∧
    (InfrastructureClusterClient envAB (fresh envAB "" "" "" "")
      false).o.kubernetesClientsByContext.lookup "a" = some (1 : Nat) := by
  have hret : (InfrastructureClusterClient envAB (fresh envAB "" "" "" "") false).ret
      = .value (some (1 : Nat)) := rfl
  obtain ⟨config, client, _, _, hs, hcache⟩ :=
    InfrastructureClusterClient_of_unresolved envAB (fresh envAB "" "" "" "") _ rfl hret
  refine ⟨rfl, hret, rfl, ?_⟩
  rw [hs]
  exact hcache

/-! ## Aliases -/

theorem lastWhere_some {V : Type} (p : String → Prop) [DecidablePred p]
    (l : List (Sigma fun _ : String => V)) (r : Option V) (v : V)
    (h : lastWhere p l r = some v) :
    (∃ entry ∈ l, p entry.1 ∧ entry.2 = v) ∨ r = some v := by
  induction l generalizing r with
  | nil => exact Or.inr h
  | cons e rest ih =>
    simp only [lastWhere, List.foldl_cons] at ih h
    rcases ih _ h with ⟨entry, he, hp, hv⟩ | hr
    · exact Or.inl ⟨entry, List.mem_cons_of_mem _ he, hp, hv⟩
    · by_cases hp : p e.1
      · rw [if_pos hp] at hr
        exact Or.inl ⟨e, List.mem_cons_self _ _, hp, Option.some.inj hr⟩
      · rw [if_neg hp] at hr
        exact Or.inr hr

theorem aliasOf_injOn {V : Type} (m : GoMap V) (i c₁ c₂ : String)
    (h₁ : c₁ ∈ m) (h₂ : c₂ ∈ m) (h : aliasOf m i c₁ = aliasOf m i c₂) : c₁ = c₂ := by
  unfold aliasOf at h
  cases hl : (m.lookup DefaultClusterAlias).isSome with
  | true => simpa [hl] using h
  | false =>
    have hd : DefaultClusterAlias ∉ m := by
      rw [← AList.lookup_isSome, hl]; simp
    have hne₁ : c₁ ≠ DefaultClusterAlias := fun e => hd (e ▸ h₁)
    have hne₂ : c₂ ≠ DefaultClusterAlias := fun e => hd (e ▸ h₂)
    simp only [hl, Bool.not_false, Bool.true_and, beq_iff_eq] at h
    by_cases e₁ : c₁ = i
    · by_cases e₂ : c₂ = i
      · rw [e₁, e₂]
      · rw [if_pos e₁, if_neg e₂] at h
        exact absurd h.symm hne₂
    · by_cases e₂ : c₂ = i
      · rw [if_neg e₁, if_pos e₂] at h
        exact absurd h hne₁
      · rw [if_neg e₁, if_neg e₂] at h
        exact h

theorem lookup_contextsToAliases_aliasOf {V : Type} (m : GoMap V) (i c : String) (v : V)
    (h : m.lookup c = some v) : (contextsToAliases m i).lookup (aliasOf m i c) = some v := by
  have hc : c ∈ m := AList.lookup_isSome.1 (by rw [h]; rfl)
  rw [lookup_contextsToAliases]
  have hcongr := lastWhere_congr (fun c' => aliasOf m i c' = aliasOf m i c) (fun c' => c' = c)
    m.entries none (fun c' hc' =>
      ⟨fun e => aliasOf_injOn m i c' c (AList.mem_keys.2 hc') hc e, fun e => by rw [e]⟩)
  have hkey := lastWhere_eq_key c m.entries m.nodupKeys none
  have hl : m.entries.dlookup c = some v := h
  rw [hl] at hkey
  exact hcongr.trans hkey

theorem exists_of_lookup_contextsToAliases {V : Type} (m : GoMap V) (i k : String) (v : V)
    (h : (contextsToAliases m i).lookup k = some v) :
    ∃ c, m.lookup c = some v ∧ aliasOf m i c = k := by
  rw [lookup_contextsToAliases] at h
  rcases lastWhere_some _ m.entries none v h with ⟨⟨c, w⟩, he, hp, hv⟩ | hn
  · refine ⟨c, ?_, hp⟩
    have : w ∈ m.lookup c := AList.mem_lookup_iff.2 he
    rw [Option.mem_def] at this
    rw [this]
    exact congrArg some hv
  · cases hn

theorem mem_contextsToAliases {V : Type} (m : GoMap V) (i k : String) :
    k ∈ contextsToAliases m i ↔ ∃ c, c ∈ m ∧ aliasOf m i c = k := by
  constructor
  · intro hk
    rw [← AList.lookup_isSome, Option.isSome_iff_exists] at hk
    obtain ⟨v, hv⟩ := hk
    obtain ⟨c, hc, ha⟩ := exists_of_lookup_contextsToAliases m i k v hv
    exact ⟨c, AList.lookup_isSome.1 (by rw [hc]; rfl), ha⟩
  · rintro ⟨c, hc, rfl⟩
    rw [← AList.lookup_isSome, Option.isSome_iff_exists] at hc
    obtain ⟨v, hv⟩ := hc
    exact AList.lookup_isSome.1 (by rw [lookup_contextsToAliases_aliasOf m i c v hv]; rfl)

theorem lookup_foldl_buildClients (E : Env) (ns : String)
    (l : List (Sigma fun _ : String => E.Client)) (hl : l.NodupKeys)
    (acc : Finset String × GoMap E.PodClient) (k : String) :
    (l.foldl (fun acc entry =>
        ((insert entry.1 acc.1 : Finset String), acc.2.insert entry.1 (E.Pods entry.2 ns)))
        acc).2.lookup k
      = ((l.dlookup k).map fun client => E.Pods client ns).orElse fun _ => acc.2.lookup k := by
  induction l generalizing acc with
  | nil => rfl
  | cons e rest ih =>
    obtain ⟨c, client⟩ := e
    rw [List.nodupKeys_cons] at hl
    rw [List.foldl_cons, ih hl.2]
    by_cases hk : c = k
    · subst hk
      rw [List.dlookup_eq_none.2 hl.1, List.dlookup_cons_eq]
      simp
    · rw [List.dlookup_cons_ne _ _ (Ne.symm hk)]
      simp only [AList.lookup_insert_ne (Ne.symm hk)]

theorem lookup_buildClients (E : Env) (ns : String) (aliases : GoMap E.Client) (k : String) :
    (buildClients E ns aliases).2.lookup k
      = (aliases.lookup k).map fun client => E.Pods client ns := by
  unfold buildClients
  rw [lookup_foldl_buildClients E ns aliases.entries aliases.nodupKeys]
  cases h : aliases.entries.dlookup k with
  | none =>
    have : aliases.lookup k = none := h
    simp [this]
  | some client =>
    have : aliases.lookup k = some client := h
    simp [this]

theorem BuildClusterClients_value (E : Env) (o : KubernetesOptions E) (ns : String)
    (dryRun : Bool) (knownAliases : Finset String) (clients : GoMap E.PodClient)
    (hr : o.resolved = true)
    (hret : (BuildClusterClients E o ns dryRun knownAliases).ret = .value clients) :
    clients = (buildClients E ns
      (contextsToAliases o.kubernetesClientsByContext o.infraContext)).2 := by
  unfold BuildClusterClients at hret
  by_cases hd : o.dryRun = true
  · rw [if_pos hd] at hret; cases hret
  · rw [if_neg hd, resolve_of_resolved E o dryRun hr] at hret
    dsimp only at hret
    split at hret
    · cases hret
    · exact (Result.value.inj hret).symm

theorem default_mem_contextsToAliases {V : Type} (m : GoMap V) (i : String) (hi : i ∈ m) :
    DefaultClusterAlias ∈ contextsToAliases m i := by
  rw [mem_contextsToAliases]
  cases hl : (m.lookup DefaultClusterAlias).isSome with
  | true => exact ⟨DefaultClusterAlias, AList.lookup_isSome.1 hl, by simp [aliasOf, hl]⟩
  | false => exact ⟨i, hi, by simp [aliasOf, hl]⟩

/-- C15: after a successful resolve(false) from an unresolved state, the
infra context is a key of the client cache, the alias map of the cache has
the key "default", and every successful `BuildClusterClients` result on the
instance has an entry for "default". -/
theorem default_alias_always_exists (E : Env) (o : KubernetesOptions E)
    (h : o.resolved = false) (hok : (resolve E o false).ret = none) :
    (resolve E o false).o.infraContext ∈ (resolve E o false).o.kubernetesClientsByContext ∧
    DefaultClusterAlias ∈ contextsToAliases (resolve E o false).o.kubernetesClientsByContext
      (resolve E o false).o.infraContext ∧
    ∀ (ns : String) (dryRun : Bool) (knownAliases : Finset String)
      (clients : GoMap E.PodClient),
      (BuildClusterClients E (resolve E o false).o ns dryRun knownAliases).ret
        = .value clients →
      DefaultClusterAlias ∈ clients := by
  obtain ⟨clients, made, infraConfig, pjClient, _, hl, _, ho⟩ := resolve_false_eq_none E o h hok
  obtain ⟨client, _, hcache⟩ :=
    (lookup_cache_of_resolve E o h hok (infraContextOf E o)).1 infraConfig hl
  have hctx : (resolve E o false).o.infraContext = infraContextOf E o := by rw [ho]
  have hres : (resolve E o false).o.resolved = true := by rw [ho]
  have hmem : (resolve E o false).o.infraContext
      ∈ (resolve E o false).o.kubernetesClientsByContext := by
    rw [hctx]
    exact AList.lookup_isSome.1 (by rw [hcache]; rfl)
  have hdef := default_mem_contextsToAliases _ _ hmem
  refine ⟨hmem, hdef, fun ns dryRun knownAliases pods hret => ?_⟩
  rw [BuildClusterClients_value E _ ns dryRun knownAliases pods hres hret]
  rw [← AList.lookup_isSome, lookup_buildClients, Option.isSome_map']
  exact AList.lookup_isSome.2 hdef

/-- C15 on a never resolved instance whose loader finds a ↦ 1, b ↦ 2 with
default context "a": the infra context "a" is cached, and the pod clients
returned hold the pod client of client 1 under "default". -/
theorem default_alias_always_exists_witness :
    (fresh envAB "" "" "" "").resolved = false ∧
    (resolve envAB (fresh envAB "" "" "" "") false).ret = none ∧
    (resolve envAB (fresh envAB "" "" "" "") false).o.infraContext = "a" ∧
    "a" ∈ (resolve envAB (fresh envAB "" "" "" "") false).o.kubernetesClientsByContext ∧
    DefaultClusterAlias ∈ contextsToAliases
      (resolve envAB (fresh envAB "" "" "" "") false).o.kubernetesClientsByContext
      (resolve envAB (fresh envAB "" "" "" "") false).o.infraContext :=
  ⟨rfl, rfl, rfl, (default_alias_always_exists envAB (fresh envAB "" "" "" "") rfl rfl).1,
    (default_alias_always_exists envAB (fresh envAB "" "" "" "") rfl rfl).2.1⟩

/-- C16: on an instance resolved in non-dry-run mode, a successful
`BuildClusterClients` returns a map whose keys are exactly the keys of the
alias map, whether or not they are named in knownAliases; under each alias
it holds the pod client, for the namespace, of the client the alias map
holds there, so the client cached for a context is found under the alias of
that context. -/
theorem BuildClusterClients_keyed_by_alias (E : Env) (o : KubernetesOptions E)
    (ns : String) (dryRun : Bool) (knownAliases : Finset String)
    (clients : GoMap E.PodClient) (hr : o.resolved = true) (hd : o.dryRun = false)
    (hret : (BuildClusterClients E o ns dryRun knownAliases).ret = .value clients) :
    (∀ k, k ∈ clients ↔ k ∈ contextsToAliases o.kubernetesClientsByContext o.infraContext) ∧
    (∀ k, clients.lookup k =
      ((contextsToAliases o.kubernetesClientsByContext o.infraContext).lookup k).map
        fun client => E.Pods client ns) ∧
    (∀ context client, o.kubernetesClientsByContext.lookup context = some client →
      clients.lookup (aliasOf o.kubernetesClientsByContext o.infraContext context)
        = some (E.Pods client ns)) := by
  have hclients : clients = (buildClients E ns
      (contextsToAliases o.kubernetesClientsByContext o.infraContext)).2 := by
    unfold BuildClusterClients at hret
    rw [if_neg (by simp [hd]), resolve_of_resolved E o dryRun hr] at hret
    dsimp only at hret
    split at hret
    · cases hret
    · exact (Result.value.inj hret).symm
  have hlookup : ∀ k, clients.lookup k =
      ((contextsToAliases o.kubernetesClientsByContext o.infraContext).lookup k).map
        fun client => E.Pods client ns := by
    intro k
    rw [hclients, lookup_buildClients]
  refine ⟨fun k => ?_, hlookup, fun context client hc => ?_⟩
  · rw [← AList.lookup_isSome, ← AList.lookup_isSome, hlookup, Option.isSome_map']
  · rw [hlookup, lookup_contextsToAliases_aliasOf _ _ context client hc]
    rfl

/-- C16 on the cached clients a ↦ 1, b ↦ 2 with infra context "a" and the
only known alias "b": the pod clients are keyed "default" and "b", "a" is
no key, and "default" holds the pod client of client 1. -/
theorem BuildClusterClients_keyed_by_alias_witness :
    resolvedAB.resolved = true ∧ resolvedAB.dryRun = false ∧
    (BuildClusterClients envAB resolvedAB "ns" false {"b"}).ret
      = .value (buildClients envAB "ns" (contextsToAliases mapAB "a")).2 ∧
    (buildClients envAB "ns" (contextsToAliases mapAB "a")).2.lookup "default"
      = some ((1 : Nat), "ns") ∧
    (buildClients envAB "ns" (contextsToAliases mapAB "a")).2.lookup "b"
      = some ((2 : Nat), "ns") ∧
    "a" ∉ (buildClients envAB "ns" (contextsToAliases mapAB "a")).2 := by
  have hret : (BuildClusterClients envAB resolvedAB "ns" false {"b"}).ret
      = .value (buildClients envAB "ns" (contextsToAliases mapAB "a")).2 := by
    have hsub : ({"b"} : Finset String) ⊆ (buildClients envAB "ns"
        (contextsToAliases resolvedAB.kubernetesClientsByContext resolvedAB.infraContext)).1 := by
      intro a ha
      rw [Finset.mem_singleton] at ha
      rw [mem_buildClients_aliases, ha]
      decide
    unfold BuildClusterClients
    rw [if_neg (by decide), resolve_of_resolved envAB resolvedAB false rfl]
    simp only [hsub, not_true_eq_false, if_false]
    rfl
  have h := BuildClusterClients_keyed_by_alias envAB resolvedAB "ns" false {"b"} _ rfl rfl hret
  refine ⟨rfl, rfl, hret, ?_, ?_, ?_⟩
  · exact h.2.2 "a" (1 : Nat) rfl
  · exact h.2.2 "b" (2 : Nat) rfl
  · rw [h.1 "a"]
    decide

/-- C17: on an unresolved instance, when the generic client constructor
fails for some context of the loaded config set, resolve(false) returns the
construction error of a failing context, records only dryRun = false (the
infra context field is not touched), makes no call to the clientset
constructor and leaves the instance unresolved. -/
theorem resolve_client_construction_failure (E : Env) (o : KubernetesOptions E)
    (h : o.resolved = false)
    (hfail : ∃ entry ∈ (loadedConfigs E o).entries,
      ∃ err, E.kubernetesNewForConfig entry.2 = .error err) :
    (∃ entry ∈ (loadedConfigs E o).entries, ∃ err,
      E.kubernetesNewForConfig entry.2 = .error err ∧
      (resolve E o false).ret = some (.construction err)) ∧
    (resolve E o false).o = { o with dryRun := false } ∧
    (resolve E o false).o.resolved = false ∧
    (∀ config, Call.prowNewForConfig config ∉ (resolve E o false).calls) := by
  obtain ⟨err, made, hn, entry, he, herr⟩ :=
    newClients_error_of_exists E (loadedConfigs E o).entries ∅ hfail
  have hmade := newClients_calls E (loadedConfigs E o).entries ∅
  rw [hn] at hmade
  rw [resolve_false_of_unresolved E o h, hn]
  refine ⟨⟨entry, he, err, herr, rfl⟩, rfl, h, fun config hc => ?_⟩
  rcases List.mem_cons.1 hc with hc | hc
  · cases hc
  · exact hmade config hc

/-- C17 on a never resolved instance whose loader finds a ↦ 0, b ↦ 2,
where the constructor fails on config 0: resolve(false) returns that
construction error after two calls and the instance stays unresolved. -/
theorem resolve_client_construction_failure_witness :
    (fresh envBadA "" "" "" "").resolved = false ∧
    envBadA.kubernetesNewForConfig (0 : Nat) = .error "bad config" ∧
    (resolve envBadA (fresh envBadA "" "" "" "") false).ret
      = some (.construction "bad config") ∧
    (resolve envBadA (fresh envBadA "" "" "" "") false).calls
      = [.LoadClusterConfigs "" "", .kubernetesNewForConfig (0 : Nat)] ∧
    (resolve envBadA (fresh envBadA "" "" "" "") false).o.resolved = false ∧
    (resolve envBadA (fresh envBadA "" "" "" "") false).o.infraContext = "" := by
  have h := resolve_client_construction_failure envBadA (fresh envBadA "" "" "" "") rfl
    ⟨⟨"a", (0 : Nat)⟩, List.mem_cons_self _ _, "bad config", rfl⟩
  refine ⟨rfl, rfl, rfl, rfl, h.2.2.1, ?_⟩
  rw [h.2.1]
  rfl

/-- C18: `contextsToAliases` renames the keys injectively: distinct contexts
of the map get distinct aliases, the result has as many entries as the map,
a client sits in the result under an alias exactly when it sits in the map
under the one context with that alias, and a map with the same entries in
another iteration order gives the same result under every key. -/
theorem contextsToAliases_injective_renaming {V : Type} (m : GoMap V) (i : String) :
    (∀ c₁ c₂, c₁ ∈ m → c₂ ∈ m → aliasOf m i c₁ = aliasOf m i c₂ → c₁ = c₂) ∧
    (contextsToAliases m i).entries.length = m.entries.length ∧
    (∀ c v, m.lookup c = some v → (contextsToAliases m i).lookup (aliasOf m i c) = some v) ∧
    (∀ k v, (contextsToAliases m i).lookup k = some v ↔
      ∃! c, m.lookup c = some v ∧ aliasOf m i c = k) ∧
    (∀ m' : GoMap V, m'.entries.Perm m.entries →
      ∀ k, (contextsToAliases m' i).lookup k = (contextsToAliases m i).lookup k) := by
  have hinj := aliasOf_injOn m i
  have hiff : ∀ (n : GoMap V) k v, (contextsToAliases n i).lookup k = some v ↔
      ∃ c, n.lookup c = some v ∧ aliasOf n i c = k := by
    intro n k v
    constructor
    · exact exists_of_lookup_contextsToAliases n i k v
    · rintro ⟨c, hc, rfl⟩
      exact lookup_contextsToAliases_aliasOf n i c v hc
  refine ⟨fun c₁ c₂ => hinj c₁ c₂, ?_, lookup_contextsToAliases_aliasOf m i, ?_, ?_⟩
  · have hkeys : (contextsToAliases m i).keys.toFinset
        = m.keys.toFinset.image (aliasOf m i) := by
      ext k
      rw [List.mem_toFinset, ← AList.mem_keys, mem_contextsToAliases, Finset.mem_image]
      simp only [List.mem_toFinset, ← AList.mem_keys]
    have hcard := congrArg Finset.card hkeys
    rw [List.toFinset_card_of_nodup (AList.keys_nodup _), Finset.card_image_of_injOn,
      List.toFinset_card_of_nodup (AList.keys_nodup _)] at hcard
    · simpa [AList.keys, List.keys] using hcard
    · intro c₁ h₁ c₂ h₂ he
      rw [Finset.mem_coe, List.mem_toFinset, ← AList.mem_keys] at h₁ h₂
      exact hinj c₁ c₂ h₁ h₂ he
  · intro k v
    rw [hiff]
    constructor
    · rintro ⟨c, hc, ha⟩
      refine ⟨c, ⟨hc, ha⟩, fun c' hc' => ?_⟩
      exact hinj c' c (AList.lookup_isSome.1 (by rw [hc'.1]; rfl))
        (AList.lookup_isSome.1 (by rw [hc]; rfl)) (hc'.2.trans ha.symm)
    · rintro ⟨c, hc, _⟩
      exact ⟨c, hc⟩
  · intro m' hperm k
    have hlookup : ∀ c, m'.lookup c = m.lookup c := fun c => AList.perm_lookup hperm
    have halias : ∀ c, aliasOf m' i c = aliasOf m i c := by
      intro c
      unfold aliasOf
      rw [hlookup]
    apply Option.ext
    intro v
    rw [Option.mem_def, Option.mem_def, hiff, hiff]
    simp only [hlookup, halias]

theorem ProwJobClient_after_resolve (E : Env) (o : KubernetesOptions E) (ns : String)
    (h : o.resolved = false) (hok : (resolve E o false).ret = none) :
    ∃ pjClient,
      (resolve E o false).o.prowJobClientset = some pjClient ∧
      (resolve E o false).o.dryRun = false ∧
      ProwJobClient E o ns false
        = ⟨.value (E.ProwJobs pjClient ns), (resolve E o false).o, (resolve E o false).calls⟩ := by
  obtain ⟨clients, made, infraConfig, pjClient, _, _, _, ho⟩ := resolve_false_eq_none E o h hok
  have hp : (resolve E o false).o.prowJobClientset = some pjClient := by rw [ho]
  have hd : (resolve E o false).o.dryRun = false := by rw [ho]
  refine ⟨pjClient, hp, hd, ?_⟩
  unfold ProwJobClient
  simp only [hok, hd, hp, Bool.false_eq_true, if_false]

/-- C19: on an instance resolved with dryRun = false, `ProwJobClient` with
dryRun = true returns the real job client of the cached clientset for the
namespace and leaves the instance, in particular the dry-run flag, as it
was; and after a first `ProwJobClient` with dryRun = true on an unresolved
instance has recorded dry-run mode, a later `ProwJobClient` with
dryRun = false whose resolution succeeds records dryRun = false and returns
the real job client of the clientset it cached. -/
theorem ProwJobClient_dry_run_request_ignored (E : Env)
    (o : KubernetesOptions E) (clientset : E.ProwClientset)
    (o₀ : KubernetesOptions E) (ns later : String)
    (hr : o.resolved = true) (hd : o.dryRun = false)
    (hc : o.prowJobClientset = some clientset)
    (h₀ : o₀.resolved = false)
    (hok : (resolve E (ProwJobClient E o₀ ns true).o false).ret = none) :
    (ProwJobClient E o ns true).ret = .value (E.ProwJobs clientset ns) ∧
    (E.ProwJobs clientset ns ≠ E.NewDryRunProwJobClient o.DeckURI →
      (ProwJobClient E o ns true).ret ≠ .value (E.NewDryRunProwJobClient o.DeckURI)) ∧
    (ProwJobClient E o ns true).o = o ∧
    (ProwJobClient E o₀ ns true).ret = .value (E.NewDryRunProwJobClient o₀.DeckURI) ∧
    (ProwJobClient E o₀ ns true).o.dryRun = true ∧
    (ProwJobClient E (ProwJobClient E o₀ ns true).o later false).o.dryRun = false ∧
    ∃ cached,
      (ProwJobClient E (ProwJobClient E o₀ ns true).o later false).o.prowJobClientset
        = some cached ∧
      (ProwJobClient E (ProwJobClient E o₀ ns true).o later false).ret
        = .value (E.ProwJobs cached later) := by
  have h1 : ProwJobClient E o ns true = ⟨.value (E.ProwJobs clientset ns), o, []⟩ := by
    simp [ProwJobClient, resolve_of_resolved E o true hr, hd, hc]
  have h2 : ProwJobClient E o₀ ns true
      = ⟨.value (E.NewDryRunProwJobClient o₀.DeckURI), { o₀ with dryRun := true }, []⟩ := by
    simp [ProwJobClient, resolve, h₀]
  have hun : (ProwJobClient E o₀ ns true).o.resolved = false := by rw [h2]; exact h₀
  obtain ⟨pjClient, hp, hdr, h3⟩ :=
    ProwJobClient_after_resolve E (ProwJobClient E o₀ ns true).o later hun hok
  refine ⟨by rw [h1], ?_, by rw [h1], by rw [h2], by rw [h2], ?_, pjClient, ?_, by rw [h3]⟩
  · intro he
    rw [h1]
    intro hv
    exact he (Result.value.inj hv)
  · rw [h3]; exact hdr
  · rw [h3]; exact hp

/-- C19 on the instance a successful resolve(false) leaves behind, and on a
never resolved instance: the dry-run request returns the real client of
clientset 1 and not the client for the deck URI, and the real call after a
dry-run call clears the dry-run flag and returns the real client of
clientset 1. -/
theorem ProwJobClient_dry_run_request_ignored_witness :
    (resolve envAB (fresh envAB "" "" "" "http://deck") false).o.resolved = true ∧
    (resolve envAB (fresh envAB "" "" "" "http://deck") false).o.dryRun = false ∧
    (fresh envAB "" "" "" "http://deck").resolved = false ∧
    (ProwJobClient envAB (resolve envAB (fresh envAB "" "" "" "http://deck") false).o
      "ns" true).ret = .value (envAB.ProwJobs (1 : Nat) "ns") ∧
    (ProwJobClient envAB (resolve envAB (fresh envAB "" "" "" "http://deck") false).o
      "ns" true).ret ≠ .value (envAB.NewDryRunProwJobClient "http://deck") ∧
    (ProwJobClient envAB (fresh envAB "" "" "" "http://deck") "ns" true).o.dryRun = true ∧
    (ProwJobClient envAB (ProwJobClient envAB (fresh envAB "" "" "" "http://deck")
      "ns" true).o "later" false).o.dryRun = false ∧
    (ProwJobClient envAB (ProwJobClient envAB (fresh envAB "" "" "" "http://deck")
      "ns" true).o "later" false).ret = .value (envAB.ProwJobs (1 : Nat) "later") := by
  have h := ProwJobClient_dry_run_request_ignored envAB
    (resolve envAB (fresh envAB "" "" "" "http://deck") false).o (1 : Nat)
    (fresh envAB "" "" "" "http://deck") "ns" "later" rfl rfl rfl rfl rfl
  exact ⟨rfl, rfl, rfl, h.1, h.2.1 (fun he => by cases he), h.2.2.2.2.1, h.2.2.2.2.2.1, rfl⟩

end flagutil
